import Mathlib

/-!
Verification development for the pizza-delivery chatbot frontend and its
turn-based order orchestrator.  The frontend definitions are shallow
embeddings of the TypeScript sources (`types/chat.ts`,
`components/ChatContainer.tsx`, `services/api.ts`,
`components/ChatInput.tsx`).  The backend core (Pricing Resolver, Cart
Ledger, Agent Loop, Turn Assembler) is not part of the available sources
and is modelled from the specification where a claim needs it.
-/

namespace PizzaChat

/-- Embeds interface Message of types/chat.ts: role is the string
union of user and assistant, content a string, timestamp optional
(modelled as an opaque optional number). -/
structure Message where
  role : String
  content : String
  timestamp : Option Nat := none
deriving Repr, DecidableEq

/-- Embeds interface CartItem of types/chat.ts: note that quantity is an
optional field there, hence Option here. -/
structure CartItem where
  name : String
  price : Rat
  quantity : Option Nat := none
deriving Repr, DecidableEq

/-- Embeds interface ChatRequest of types/chat.ts. -/
structure ChatRequest where
  message : String
  conversation_history : List Message
deriving Repr, DecidableEq

/-- The payload actually posted to the chat endpoint by sendChatMessage in
services/api.ts: the ChatRequest fields spread plus cart_items and total. -/
structure ChatPayload where
  message : String
  conversation_history : List Message
  cart_items : List CartItem
  total : Rat
deriving Repr, DecidableEq

/-- Embeds interface ChatResponse of types/chat.ts. -/
structure ChatResponse where
  response : String
  cart_items : List CartItem
  total : Rat
deriving Repr, DecidableEq

/-- JavaScript number-or-default: `x || d` where a missing or zero number
falls back to the default (0 is falsy in JavaScript). -/
def jsOrNum (x : Option Rat) (d : Rat) : Rat :=
  match x with
  | none => d
  | some v => if v = 0 then d else v

/-- Embeds sendChatMessage of services/api.ts restricted to its pure
payload construction: the posted body is the spread of the request plus
cart_items defaulted with a JavaScript or to the empty array and total
defaulted with a JavaScript or to 0.0.  (An array argument, even empty,
is truthy, so only an absent argument takes the default.) -/
def sendChatMessage (request : ChatRequest)
    (currentCartItems : Option (List CartItem))
    (currentTotal : Option Rat) : ChatPayload :=
  { message := request.message
    conversation_history := request.conversation_history
    cart_items := currentCartItems.getD []
    total := jsOrNum currentTotal 0 }

/-- The React state held by ChatContainer: messages, cartItems, total,
isLoading. -/
structure ClientState where
  messages : List Message
  cartItems : List CartItem
  total : Rat
  isLoading : Bool
deriving Repr, DecidableEq

/-- Initial ChatContainer state: empty message list, empty cart, zero
total, not loading. -/
def initialClientState : ClientState := ⟨[], [], 0, false⟩

/-- The user message object built at the top of handleSendMessage. -/
def userMessage (content : String) : Message := ⟨"user", content, none⟩

/-- An assistant message object as built in handleSendMessage for both the
success reply and the error apology. -/
def assistantMessage (content : String) : Message := ⟨"assistant", content, none⟩

/-- The fixed apology text appended by the catch branch of
handleSendMessage. -/
def errorText : String := "Desculpe, encontrei um erro. Por favor, tente novamente."

/-- Outcome of the awaited sendChatMessage call: either the backend
response or a rejection. -/
inductive FetchOutcome where
  | success (resp : ChatResponse)
  | failure
deriving Repr, DecidableEq

/-- Embeds handleSendMessage of ChatContainer.tsx as a state transition.
The user message is appended first; the payload is built from the state
captured by the closure — the messages list as it stood before the user
message was appended — together with the current cartItems and total.  On
success the assistant reply is appended and cart state is replaced by the
response fields; on failure the apology is appended and the cart state is
left alone.  Returns the new state and the payload that was posted. -/
def handleSendMessage (s : ClientState) (content : String)
    (outcome : FetchOutcome) : ClientState × ChatPayload :=
  let userMsg := userMessage content
  let afterUser : ClientState :=
    { s with messages := s.messages ++ [userMsg], isLoading := true }
  let payload := sendChatMessage ⟨content, s.messages⟩ (some s.cartItems) (some s.total)
  match outcome with
  | .success resp =>
      ({ afterUser with
          messages := afterUser.messages ++ [assistantMessage resp.response]
          cartItems := resp.cart_items
          total := resp.total
          isLoading := false }, payload)
  | .failure =>
      ({ afterUser with
          messages := afterUser.messages ++ [assistantMessage errorText]
          isLoading := false }, payload)

/-- One user interaction with the chat container: a message send together
with how the backend call turned out. -/
inductive ClientEvent where
  | send (content : String) (outcome : FetchOutcome)
deriving Repr, DecidableEq

/-- Applies one event to the ChatContainer state. -/
def stepClient (s : ClientState) (e : ClientEvent) : ClientState :=
  match e with
  | .send content outcome => (handleSendMessage s content outcome).1

/-- The ChatContainer state reached after a sequence of interactions,
starting from the initial state. -/
def runClient (events : List ClientEvent) : ClientState :=
  events.foldl stepClient initialClientState

/-- Removal of leading and trailing whitespace, the semantics of the
JavaScript string trim method, written over the character list so that it
evaluates by kernel reduction. -/
def trimString (s : String) : String :=
  ⟨((s.data.dropWhile Char.isWhitespace).reverse.dropWhile Char.isWhitespace).reverse⟩

/-- Embeds handleSubmit of ChatInput.tsx: returns the message passed to
onSendMessage (if any) and the next value of the input field.  The guard
is the JavaScript truthiness test on the trimmed input conjoined with the
negated disabled flag. -/
def handleSubmit (input : String) (disabled : Bool) : Option String × String :=
  if trimString input ≠ "" ∧ disabled = false then (some (trimString input), "")
  else (none, input)

/-- Modelled from the spec: the Menu Store is a read-only catalog mapping
item names to canonical unit prices. -/
abbrev Menu := List (String × Rat)

/-- Lower-casing of a string written over the character list so that it
evaluates by kernel reduction. -/
def lowerString (s : String) : String := ⟨s.data.map Char.toLower⟩

/-- Modelled from the spec: the Pricing Resolver lookupPrice with
case-insensitive matching, producing the canonical price or nothing. -/
def lookupPrice (menu : Menu) (name : String) : Option Rat :=
  (menu.find? (fun entry => lowerString entry.1 == lowerString name)).map (fun entry => entry.2)

/-- Modelled from the spec: a CartLine of the Cart Ledger — item name,
positive integer quantity, unit price pinned at add-time. -/
structure CartLine where
  itemName : String
  quantity : Nat
  unitPrice : Rat
deriving Repr, DecidableEq

/-- Modelled from the spec: the Cart Ledger error taxonomy relevant to
cart operations. -/
inductive LedgerError where
  | UnknownItem
  | ItemNotInCart
  | InvalidQuantity
deriving Repr, DecidableEq

/-- Rounds a rational to 2 decimal places using round-half-up. -/
def roundHalfUp2 (q : Rat) : Rat := ((q * 100 + 1/2).floor : Rat) / 100

/-- The exact (unrounded) sum of quantity times unit price over cart
lines. -/
def lineSum (lines : List CartLine) : Rat :=
  lines.foldr (fun l acc => (l.quantity : Rat) * l.unitPrice + acc) 0

/-- Modelled from the spec: the derived cart total — the sum over lines
of quantity times unit price, rounded to 2 decimal places half-up. -/
def cartTotal (lines : List CartLine) : Rat := roundHalfUp2 (lineSum lines)

/-- Modelled from the spec: the value of the Cart Ledger snapshot
operation — the lines plus a total recomputed from them on every call. -/
structure CartSnapshot where
  lines : List CartLine
  total : Rat
deriving Repr, DecidableEq

/-- Modelled from the spec: snapshot recomputes the total from the
current lines; the total is never cached. -/
def snapshot (lines : List CartLine) : CartSnapshot := ⟨lines, cartTotal lines⟩

/-- Case normalization applied to item names stored in the ledger. -/
def normalizeName (s : String) : String := lowerString s

/-- Modelled from the spec: Cart Ledger addItem — fails InvalidQuantity
for a non-positive quantity, fails UnknownItem when the Pricing Resolver
finds no price, otherwise merges into an existing line for the name or
appends a new line with the resolved price pinned. -/
def addItem (menu : Menu) (lines : List CartLine) (name : String)
    (quantity : Int) : Except LedgerError (List CartLine) :=
  if quantity ≤ 0 then .error .InvalidQuantity
  else
    match lookupPrice menu name with
    | none => .error .UnknownItem
    | some price =>
      if lines.any (fun l => l.itemName == normalizeName name) then
        .ok (lines.map (fun l =>
          if l.itemName == normalizeName name then
            { l with quantity := l.quantity + quantity.toNat }
          else l))
      else
        .ok (lines ++ [⟨normalizeName name, quantity.toNat, price⟩])

/-- The decrement pass of removeItem: lines matching the key lose q from
their quantity, dropping the line when q reaches or exceeds it; other
lines are kept unchanged. -/
def removeFold (key : String) (q : Int) (lines : List CartLine) : List CartLine :=
  lines.foldr (fun l acc =>
    if l.itemName == key then
      if (l.quantity : Int) ≤ q then acc
      else { l with quantity := l.quantity - q.toNat } :: acc
    else l :: acc) []

/-- Modelled from the spec: Cart Ledger removeItem — fails ItemNotInCart
when no line matches; with the quantity omitted or at least the current
quantity the line is removed entirely, otherwise it is decremented. -/
def removeItem (lines : List CartLine) (name : String)
    (quantity : Option Int) : Except LedgerError (List CartLine) :=
  if lines.any (fun l => l.itemName == normalizeName name) then
    match quantity with
    | none => .ok (lines.filter (fun l => l.itemName != normalizeName name))
    | some q => .ok (removeFold (normalizeName name) q lines)
  else .error .ItemNotInCart

/-- Modelled from the spec: the fixed tool schema of the Tool Registry. -/
inductive ToolCall where
  | get_menu
  | get_price (item_name : String)
  | add_to_cart (item_name : String) (quantity : Int)
  | remove_from_cart (item_name : String) (quantity : Option Int)
deriving Repr, DecidableEq

/-- Modelled from the spec: a Language Model Endpoint completion — either
a direct text answer or a list of requested tool calls. -/
inductive ModelResponse where
  | text (reply : String)
  | toolCalls (calls : List ToolCall)

/-- A tool-speaker transcript turn carrying a tool result payload. -/
def toolMessage (content : String) : Message := ⟨"tool", content, none⟩

/-- Renders a ledger error as a tool result error payload. -/
def LedgerError.payload : LedgerError → String
  | .UnknownItem => "error: UnknownItem"
  | .ItemNotInCart => "error: ItemNotInCart"
  | .InvalidQuantity => "error: InvalidQuantity"

/-- Modelled from the spec: executing one tool call against the Menu
Store and Cart Ledger; failures become error payloads, never thrown past
the Agent Loop boundary. -/
def executeTool (menu : Menu) (lines : List CartLine) (call : ToolCall) :
    String × List CartLine :=
  match call with
  | .get_menu => (String.intercalate ", " (menu.map (fun e => e.1)), lines)
  | .get_price name =>
    match lookupPrice menu name with
    | some p => (toString p, lines)
    | none => (LedgerError.UnknownItem.payload, lines)
  | .add_to_cart name q =>
    match addItem menu lines name q with
    | .ok l => ("ok", l)
    | .error e => (e.payload, lines)
  | .remove_from_cart name q =>
    match removeItem lines name q with
    | .ok l => ("ok", l)
    | .error e => (e.payload, lines)

/-- Modelled from the spec: executes the requested tool calls in emitted
order, appending each tool result to the transcript as a tool turn. -/
def executeTools (menu : Menu) (calls : List ToolCall) (lines : List CartLine)
    (transcript : List Message) : List CartLine × List Message :=
  match calls with
  | [] => (lines, transcript)
  | c :: rest =>
    let step := executeTool menu lines c
    executeTools menu rest step.2 (transcript ++ [toolMessage step.1])

/-- The fallback apology reply produced when the iteration cap is hit. -/
def fallbackReply : String := "Desculpe, nao consegui concluir seu pedido."

/-- Modelled from the spec: the per-turn iteration cap on model
round-trips. -/
def iterationCap : Nat := 5

/-- Modelled from the spec: the Agent Loop — sends the transcript to the
(deterministic, stubbed) Language Model Endpoint; a text response ends
the loop, tool-call responses are executed in order and fed back; running
out of the cap aborts with the fallback apology and the cart as the last
successful tool execution left it. -/
def agentLoop (menu : Menu) (stub : List Message → ModelResponse) :
    Nat → List Message → List CartLine → String × List CartLine
  | 0, _, lines => (fallbackReply, lines)
  | Nat.succ fuel, transcript, lines =>
    match stub transcript with
    | .text reply => (reply, lines)
    | .toolCalls calls =>
      let step := executeTools menu calls lines transcript
      agentLoop menu stub fuel step.2 step.1

/-- Modelled from the spec: the Turn Assembler seeds the Cart Ledger from
the caller-supplied cart, validating each element against the ledger
invariants and dropping invalid lines; valid lines are added with the
canonical price pinned and same-name lines merged.  This is the per-item
step of that seeding. -/
def seedStep (menu : Menu) (lines : List CartLine) (item : CartItem) : List CartLine :=
  match item.quantity with
  | none => lines
  | some q =>
    match addItem menu lines item.name (Int.ofNat q) with
    | .ok l => l
    | .error _ => lines

/-- Modelled from the spec: seeding folds the validating step over the
caller cart starting from an empty ledger. -/
def seedLedger (menu : Menu) (callerCart : List CartItem) : List CartLine :=
  callerCart.foldl (seedStep menu) []

/-- Modelled from the spec: the transcript handed to the Agent Loop — the
caller history with the new user message appended as the most recent
turn. -/
def turnTranscript (userMsg : String) (history : List Message) : List Message :=
  history ++ [userMessage userMsg]

/-- The response contract assembled at turn end. -/
structure TurnResult where
  reply : String
  cart : List CartLine
  total : Rat
deriving Repr, DecidableEq

/-- Modelled from the spec: runTurn of the Turn Assembler — seeds the
ledger from the caller cart, runs the Agent Loop over the transcript, and
takes the ledger final snapshot as authoritative regardless of the
model text. -/
def runTurn (menu : Menu) (stub : List Message → ModelResponse)
    (userMsg : String) (history : List Message)
    (callerCart : List CartItem) : TurnResult :=
  let lines0 := seedLedger menu callerCart
  let loopResult := agentLoop menu stub iterationCap (turnTranscript userMsg history) lines0
  let snap := snapshot loopResult.2
  ⟨loopResult.1, snap.lines, snap.total⟩

/-- Serializes a ledger line back into the response cart item shape. -/
def lineToItem (l : CartLine) : CartItem := ⟨l.itemName, l.unitPrice, some l.quantity⟩

/-- Modelled from the spec: the chat endpoint handler — runs the turn on
the payload message, history and cart, ignoring the advisory
caller-supplied total, and serializes the result. -/
def handleChatRequest (menu : Menu) (stub : List Message → ModelResponse)
    (p : ChatPayload) : ChatResponse :=
  let r := runTurn menu stub p.message p.conversation_history p.cart_items
  ⟨r.reply, r.cart.map lineToItem, r.total⟩

/-- The sum over response cart items of price times quantity (absent
quantity counted as zero). -/
def itemSum (items : List CartItem) : Rat :=
  items.foldr (fun i acc => i.price * ((i.quantity.getD 0 : Nat) : Rat) + acc) 0

/-- Re-submitting the same caller-supplied inputs through runTurn twice:
the pair of totals produced by the first and the second run. -/
def resubmitSameTurn (menu : Menu) (stub : List Message → ModelResponse)
    (userMsg : String) (history : List Message)
    (callerCart : List CartItem) : Rat × Rat :=
  let first := runTurn menu stub userMsg history callerCart
  let second := runTurn menu stub userMsg history callerCart
  (first.total, second.total)

/-- Serializing ledger lines as response cart items preserves the sum:
the sum of price times quantity over the serialized items is the exact
line sum of the ledger. -/
theorem itemSum_map_lineToItem (lines : List CartLine) :
    itemSum (lines.map lineToItem) = lineSum lines := by
  induction lines with
  | nil => rfl
  | cons l ls ih =>
    simp only [List.map_cons, itemSum, lineSum, List.foldr, lineToItem,
      Option.getD_some] at *
    rw [ih, mul_comm]

/-- C1: for every chat response the total field equals the sum over the
returned cart items of price times quantity, rounded to 2 decimal places
half-up, and the response is entirely independent of the caller-supplied
total field of the payload. -/
theorem chatResponse_total_recomputed (menu : Menu)
    (stub : List Message → ModelResponse) (p : ChatPayload) :
    (handleChatRequest menu stub p).total =
      roundHalfUp2 (itemSum (handleChatRequest menu stub p).cart_items) ∧
    ∀ t : Rat,
      handleChatRequest menu stub ⟨p.message, p.conversation_history, p.cart_items, t⟩ =
        handleChatRequest menu stub p := by
  constructor
  · simp only [handleChatRequest, runTurn, snapshot, cartTotal]
    rw [itemSum_map_lineToItem]
  · intro t
    rfl

/-- C2: after a successful turn the client cart state and total are
replaced by exactly the cart_items and total fields of the backend
response. -/
theorem cart_replaced_by_response (s : ClientState) (content : String)
    (resp : ChatResponse) :
    ((handleSendMessage s content (.success resp)).1).cartItems = resp.cart_items ∧
    ((handleSendMessage s content (.success resp)).1).total = resp.total :=
  ⟨rfl, rfl⟩

/-- C3: the payload posted by sendChatMessage carries exactly the request
message and conversation_history plus cart_items defaulted to the empty
list and total defaulted to 0 when absent. -/
theorem sendChatMessage_payload_fields (request : ChatRequest)
    (currentCartItems : Option (List CartItem)) (currentTotal : Option Rat) :
    sendChatMessage request currentCartItems currentTotal =
      ⟨request.message, request.conversation_history,
        currentCartItems.getD [], currentTotal.getD 0⟩ := by
  unfold sendChatMessage jsOrNum
  cases currentTotal with
  | none => rfl
  | some v =>
    by_cases h : v = 0 <;> simp [h]

/-- C5: the conversation_history sent to the backend is the message list
as it stood before the new user message was added, the new user message
travels only in the message field, and the transcript consumed by the
core is that history with the user message appended as the most recent
turn. -/
theorem history_sent_precedes_user_message (s : ClientState) (content : String)
    (outcome : FetchOutcome) :
    ((handleSendMessage s content outcome).2).conversation_history = s.messages ∧
    ((handleSendMessage s content outcome).2).message = content ∧
    turnTranscript ((handleSendMessage s content outcome).2).message
        ((handleSendMessage s content outcome).2).conversation_history =
      s.messages ++ [userMessage content] := by
  cases outcome <;> exact ⟨rfl, rfl, rfl⟩

/-- C6: re-submitting the same caller-supplied cart and the same message
through runTurn twice, with the same deterministic model stub, produces
the same total both times. -/
theorem runTurn_resubmission_same_total (menu : Menu)
    (stub : List Message → ModelResponse) (userMsg : String)
    (history : List Message) (callerCart : List CartItem) :
    (resubmitSameTurn menu stub userMsg history callerCart).1 =
      (resubmitSameTurn menu stub userMsg history callerCart).2 := rfl

/-- C7: a successful turn extends the message list by exactly the user
message followed by the assistant reply, appended at the end and leaving
the previously stored messages and their order unchanged. -/
theorem success_appends_two_messages (s : ClientState) (content : String)
    (resp : ChatResponse) :
    ((handleSendMessage s content (.success resp)).1).messages =
      s.messages ++ [userMessage content, assistantMessage resp.response] ∧
    (userMessage content).role = "user" ∧
    (assistantMessage resp.response).role = "assistant" := by
  refine ⟨?_, rfl, rfl⟩
  simp [handleSendMessage]

/-- C9: when the chat request fails, cartItems and total are left
unchanged and the turn appends the user message followed by exactly one
assistant-role message carrying the fixed apology text. -/
theorem failure_preserves_cart (s : ClientState) (content : String) :
    ((handleSendMessage s content .failure).1).cartItems = s.cartItems ∧
    ((handleSendMessage s content .failure).1).total = s.total ∧
    ((handleSendMessage s content .failure).1).messages =
      s.messages ++ [userMessage content, assistantMessage errorText] ∧
    (assistantMessage errorText).role = "assistant" ∧
    (assistantMessage errorText).content =
      "Desculpe, encontrei um erro. Por favor, tente novamente." ∧
    ([userMessage content, assistantMessage errorText].countP
        (fun m => m.role == "assistant")) = 1 := by
  refine ⟨rfl, rfl, ?_, rfl, rfl, rfl⟩
  simp [handleSendMessage]

/-- C10: handleSubmit passes a message to onSendMessage exactly when the
trimmed input is non-empty and the input is not disabled; the message
passed is the trimmed input and the field is then cleared; a
whitespace-only input is never sent. -/
theorem handleSubmit_sends_iff_nonempty_enabled (input : String) (disabled : Bool) :
    ((handleSubmit input disabled).1.isSome ↔
      (trimString input ≠ "" ∧ disabled = false)) ∧
    (∀ m, (handleSubmit input disabled).1 = some m →
      m = trimString input ∧ (handleSubmit input disabled).2 = "") ∧
    (trimString input = "" → (handleSubmit input disabled).1 = none) := by
  unfold handleSubmit
  by_cases h : trimString input ≠ "" ∧ disabled = false
  · rw [if_pos h]
    refine ⟨by simp [h], ?_, fun htrim => absurd htrim h.1⟩
    intro m hm
    simp only at hm
    injection hm with hm
    exact ⟨hm.symm, rfl⟩
  · rw [if_neg h]
    refine ⟨by simp [h], ?_, fun _ => rfl⟩
    intro m hm
    simp at hm

/-- C10 witness: with input two-space oi two-space and the control
enabled, the trimmed message oi is sent and the field is cleared. -/
theorem handleSubmit_sends_iff_nonempty_enabled_witness :
    "oi" = trimString "  oi  " ∧ (handleSubmit "  oi  " false).2 = "" :=
  (handleSubmit_sends_iff_nonempty_enabled "  oi  " false).2.1 "oi" (by decide)

/-- A message role admitted by the request contract: user or assistant. -/
def roleOk (m : Message) : Prop := m.role = "user" ∨ m.role = "assistant"

/-- One client step only ever appends messages with role user or
assistant: the role invariant is preserved. -/
theorem stepClient_roles (s : ClientState) (e : ClientEvent)
    (hs : ∀ m ∈ s.messages, roleOk m) :
    ∀ m ∈ (stepClient s e).messages, roleOk m := by
  obtain ⟨content, outcome⟩ := e
  cases outcome with
  | success resp =>
    intro m hm
    simp only [stepClient, handleSendMessage, List.append_assoc, List.mem_append,
      List.mem_cons, List.mem_singleton, List.not_mem_nil, or_false] at hm
    rcases hm with hm | hm | hm
    · exact hs m hm
    · subst hm; exact Or.inl rfl
    · subst hm; exact Or.inr rfl
  | failure =>
    intro m hm
    simp only [stepClient, handleSendMessage, List.append_assoc, List.mem_append,
      List.mem_cons, List.mem_singleton, List.not_mem_nil, or_false] at hm
    rcases hm with hm | hm | hm
    · exact hs m hm
    · subst hm; exact Or.inl rfl
    · subst hm; exact Or.inr rfl

/-- The role invariant holds along any fold of client steps whose start
state satisfies it. -/
theorem foldClient_roles (events : List ClientEvent) :
    ∀ (s : ClientState), (∀ m ∈ s.messages, roleOk m) →
      ∀ m ∈ (events.foldl stepClient s).messages, roleOk m := by
  induction events with
  | nil => intro s hs; exact hs
  | cons e rest ih =>
    intro s hs
    exact ih _ (stepClient_roles s e hs)

/-- C8: every element of the conversation_history the client sends to the
backend, from any reachable client state, has role user or assistant and
never any other value. -/
theorem sent_history_roles (events : List ClientEvent) (content : String)
    (outcome : FetchOutcome) :
    ∀ m ∈ ((handleSendMessage (runClient events) content outcome).2).conversation_history,
      roleOk m := by
  have hpayload :
      ((handleSendMessage (runClient events) content outcome).2).conversation_history =
        (runClient events).messages := by
    cases outcome <;> rfl
  rw [hpayload]
  exact foldClient_roles events initialClientState (by intro m hm; simp [initialClientState] at hm)

/-- C8 witness: with one failed send already recorded, the user message
of the follow-up history carries the role user. -/
theorem sent_history_roles_witness : roleOk (userMessage "oi") :=
  sent_history_roles [ClientEvent.send "oi" FetchOutcome.failure] "tchau"
    FetchOutcome.failure (userMessage "oi") (by decide)

/-- A cart item with a defined, positive integer quantity, as the ledger
invariant demands of everything handed back to the client. -/
def goodItem (i : CartItem) : Prop := i.quantity.isSome = true ∧ 1 ≤ i.quantity.getD 0

/-- All ledger lines carry a positive quantity. -/
def linesOk (lines : List CartLine) : Prop := ∀ l ∈ lines, 1 ≤ l.quantity

/-- addItem preserves the positive-quantity invariant: a merge only adds
to a positive quantity and a fresh line gets the positive requested
quantity. -/
theorem addItem_linesOk (menu : Menu) (lines : List CartLine) (name : String)
    (q : Int) (lines' : List CartLine) (h : linesOk lines)
    (hok : addItem menu lines name q = .ok lines') : linesOk lines' := by
  unfold addItem at hok
  split at hok
  · exact absurd hok (by simp)
  case isFalse hq =>
    split at hok
    · exact absurd hok (by simp)
    case h_2 price hprice =>
      split at hok
      · injection hok with hok
        subst hok
        intro l hl
        rw [List.mem_map] at hl
        obtain ⟨l0, hl0, rfl⟩ := hl
        have h0 := h l0 hl0
        split
        · simp only
          omega
        · exact h0
      · injection hok with hok
        subst hok
        intro l hl
        rw [List.mem_append] at hl
        rcases hl with hl | hl
        · exact h l hl
        · rw [List.mem_singleton] at hl
          subst hl
          simp only
          omega

/-- The decrement pass preserves the positive-quantity invariant: a kept
matching line retains a strictly positive remainder. -/
theorem removeFold_linesOk (key : String) (q : Int) (lines : List CartLine)
    (h : linesOk lines) : linesOk (removeFold key q lines) := by
  induction lines with
  | nil => intro l hl; simp [removeFold] at hl
  | cons a as ih =>
    have ha := h a (List.mem_cons_self a as)
    have has : linesOk as := fun x hx => h x (List.mem_cons_of_mem a hx)
    intro l hl
    simp only [removeFold, List.foldr] at hl
    split at hl
    · split at hl
      · exact ih has l hl
      case isFalse hgt =>
        rcases List.mem_cons.mp hl with rfl | hl
        · simp only
          omega
        · exact ih has l hl
    · rcases List.mem_cons.mp hl with rfl | hl
      · exact ha
      · exact ih has l hl

/-- removeItem preserves the positive-quantity invariant. -/
theorem removeItem_linesOk (lines : List CartLine) (name : String)
    (q : Option Int) (lines' : List CartLine) (h : linesOk lines)
    (hok : removeItem lines name q = .ok lines') : linesOk lines' := by
  unfold removeItem at hok
  split at hok
  · split at hok
    · injection hok with hok
      subst hok
      intro l hl
      exact h l (List.mem_of_mem_filter hl)
    · injection hok with hok
      subst hok
      exact removeFold_linesOk _ _ lines h
  · exact absurd hok (by simp)

/-- Tool execution preserves the positive-quantity invariant of the
ledger. -/
theorem executeTool_linesOk (menu : Menu) (lines : List CartLine) (c : ToolCall)
    (h : linesOk lines) : linesOk (executeTool menu lines c).2 := by
  cases c with
  | get_menu => exact h
  | get_price name =>
    simp only [executeTool]
    cases lookupPrice menu name with
    | none => exact h
    | some p => exact h
  | add_to_cart name q =>
    simp only [executeTool]
    cases hadd : addItem menu lines name q with
    | ok l => exact addItem_linesOk menu lines name q l h hadd
    | error e => exact h
  | remove_from_cart name q =>
    simp only [executeTool]
    cases hrem : removeItem lines name q with
    | ok l => exact removeItem_linesOk lines name q l h hrem
    | error e => exact h

/-- Executing a batch of tool calls preserves the positive-quantity
invariant. -/
theorem executeTools_linesOk (menu : Menu) (calls : List ToolCall) :
    ∀ (lines : List CartLine) (transcript : List Message), linesOk lines →
      linesOk (executeTools menu calls lines transcript).1 := by
  induction calls with
  | nil => intro lines t h; exact h
  | cons c rest ih =>
    intro lines t h
    simp only [executeTools]
    exact ih _ _ (executeTool_linesOk menu lines c h)

/-- The Agent Loop preserves the positive-quantity invariant of the
ledger for any fuel, transcript and stub. -/
theorem agentLoop_linesOk (menu : Menu) (stub : List Message → ModelResponse) :
    ∀ (fuel : Nat) (transcript : List Message) (lines : List CartLine),
      linesOk lines → linesOk (agentLoop menu stub fuel transcript lines).2 := by
  intro fuel
  induction fuel with
  | zero => intro t lines h; exact h
  | succ n ih =>
    intro t lines h
    simp only [agentLoop]
    cases stub t with
    | text r => exact h
    | toolCalls calls =>
      exact ih _ _ (executeTools_linesOk menu calls lines t h)

/-- One seeding step preserves the positive-quantity invariant: a
dropped caller line changes nothing and an accepted one goes through
addItem. -/
theorem seedStep_linesOk (menu : Menu) (lines : List CartLine) (item : CartItem)
    (h : linesOk lines) : linesOk (seedStep menu lines item) := by
  unfold seedStep
  cases item.quantity with
  | none => exact h
  | some q =>
    dsimp only
    cases hadd : addItem menu lines item.name (Int.ofNat q) with
    | ok l => exact addItem_linesOk menu lines item.name _ l h hadd
    | error e => exact h

/-- The seeding fold establishes the positive-quantity invariant from any
invariant-satisfying accumulator. -/
theorem seedFold_linesOk (menu : Menu) (items : List CartItem) :
    ∀ (acc : List CartLine), linesOk acc →
      linesOk (items.foldl (seedStep menu) acc) := by
  induction items with
  | nil => intro acc h; exact h
  | cons i rest ih =>
    intro acc h
    simp only [List.foldl]
    exact ih _ (seedStep_linesOk menu acc i h)

/-- The ledger seeded from any caller cart satisfies the
positive-quantity invariant. -/
theorem seedLedger_linesOk (menu : Menu) (callerCart : List CartItem) :
    linesOk (seedLedger menu callerCart) :=
  seedFold_linesOk menu callerCart [] (by intro l hl; simp at hl)

/-- The cart handed back by runTurn satisfies the positive-quantity
invariant. -/
theorem runTurn_cart_linesOk (menu : Menu) (stub : List Message → ModelResponse)
    (userMsg : String) (history : List Message) (callerCart : List CartItem) :
    linesOk (runTurn menu stub userMsg history callerCart).cart := by
  simp only [runTurn, snapshot]
  exact agentLoop_linesOk menu stub iterationCap _ _ (seedLedger_linesOk menu callerCart)

/-- Every cart item in a chat endpoint response has a defined quantity of
at least one. -/
theorem handleChatRequest_items_good (menu : Menu)
    (stub : List Message → ModelResponse) (p : ChatPayload) :
    ∀ i ∈ (handleChatRequest menu stub p).cart_items, goodItem i := by
  intro i hi
  simp only [handleChatRequest] at hi
  rw [List.mem_map] at hi
  obtain ⟨l, hl, rfl⟩ := hi
  exact ⟨rfl, runTurn_cart_linesOk menu stub p.message p.conversation_history p.cart_items l hl⟩

/-- An event whose successful response, if any, was produced by the chat
backend: this is what reachability means for the composed system. -/
def serverEvent (menu : Menu) (stub : List Message → ModelResponse) :
    ClientEvent → Prop
  | .send _ (.success resp) => ∃ p, resp = handleChatRequest menu stub p
  | .send _ .failure => True

/-- One step fed by a backend-produced response keeps every client cart
item well formed. -/
theorem stepClient_cart_good (menu : Menu) (stub : List Message → ModelResponse)
    (s : ClientState) (e : ClientEvent)
    (hs : ∀ i ∈ s.cartItems, goodItem i) (he : serverEvent menu stub e) :
    ∀ i ∈ (stepClient s e).cartItems, goodItem i := by
  obtain ⟨content, outcome⟩ := e
  cases outcome with
  | success resp =>
    obtain ⟨p, rfl⟩ := he
    intro i hi
    exact handleChatRequest_items_good menu stub p i hi
  | failure => exact hs

/-- C4: in any client run whose successful responses come from the chat
backend, every cart item held by the client has a defined quantity that
is a positive integer — quantity is never absent, so the displayed line
subtotal price times quantity is well defined. -/
theorem client_cart_quantities_positive (menu : Menu)
    (stub : List Message → ModelResponse) (events : List ClientEvent)
    (h : ∀ e ∈ events, serverEvent menu stub e) :
    ∀ i ∈ (runClient events).cartItems, goodItem i := by
  suffices aux : ∀ (s : ClientState), (∀ i ∈ s.cartItems, goodItem i) →
      (∀ e ∈ events, serverEvent menu stub e) →
      ∀ i ∈ (events.foldl stepClient s).cartItems, goodItem i by
    exact aux initialClientState (by intro i hi; simp [initialClientState] at hi) h
  clear h
  induction events with
  | nil => intro s hs _; exact hs
  | cons e rest ih =>
    intro s hs hev
    exact ih _ (stepClient_cart_good menu stub s e hs (hev e (List.mem_cons_self e rest)))
      (fun e' he' => hev e' (List.mem_cons_of_mem e he'))

/-- A one-item menu used by the concrete witnesses. -/
def menuW : Menu := [("margherita", 10)]

/-- A deterministic model stub that always answers in text. -/
def stubW : List Message → ModelResponse := fun _ => ModelResponse.text "ola"

/-- A concrete payload carrying one valid caller cart line. -/
def payloadW : ChatPayload := ⟨"oi", [], [⟨"margherita", 10, some 2⟩], 20⟩

/-- A one-turn client run whose response comes from the modelled chat
backend. -/
def eventsW : List ClientEvent :=
  [ClientEvent.send "oi" (FetchOutcome.success (handleChatRequest menuW stubW payloadW))]

/-- C4 witness: in the concrete backend-fed run, the held margherita line
has a defined quantity of two. -/
theorem client_cart_quantities_positive_witness :
    goodItem ⟨"margherita", 10, some 2⟩ :=
  client_cart_quantities_positive menuW stubW eventsW
    (by
      intro e he
      simp only [eventsW, List.mem_singleton] at he
      subst he
      exact ⟨payloadW, rfl⟩)
    ⟨"margherita", 10, some 2⟩ (by decide)

end PizzaChat
